import Mathlib

/-!
Shallow embedding of the `graphql-codegen-hasura-schemas` plugin.

The repository holds two near-duplicate variants of the same transform:
`src/src/index.ts` (namespace `V1` below: list-valued field collections,
substring exclusion, explicit primary keys) and `src/unnamed/part_000`
(namespace `V2` below: map-valued field collections, exact-match exclusion
plus an aggregate-suffix switch, no primary keys).

JavaScript-specific behaviour that the TypeScript source relies on is made
explicit: truthiness of arrays, objects and numbers, optional chaining, and
the `??` operator.  The GraphQL schema object (from `graphql-js`) is
embedded as a name-keyed list of type definitions plus an optional
mutation-field map; wrapped field types (`GraphQLNonNull`, `GraphQLList`)
are an inductive with named leaves carrying only the information the
flattener consults (kind and name).
-/

/-- Chars of `hay` start with chars of `pat` (prefix test on char lists). -/
def charsStartWith : List Char → List Char → Bool
  | _, [] => true
  | [], _ :: _ => false
  | c :: cs, p :: ps => c == p && charsStartWith cs ps

/-- `pat` occurs somewhere inside `hay` (substring test on char lists). -/
def charsInclude : List Char → List Char → Bool
  | [], pat => pat.isEmpty
  | c :: rest, pat => charsStartWith (c :: rest) pat || charsInclude rest pat

/-- Models the JS `String.prototype.includes`: substring containment. -/
def strIncludes (hay pat : String) : Bool :=
  charsInclude hay.data pat.data

/-- Word separators recognised by the radash case helpers. -/
def isSepChar (c : Char) : Bool :=
  c == '_' || c == '-' || c == '.' || c == ' '

/-- Split a char list into words at separators and before uppercase letters. -/
def splitWordsAux : List Char → List Char → List (List Char)
  | [], acc => [acc.reverse]
  | c :: cs, acc =>
    if isSepChar c then acc.reverse :: splitWordsAux cs []
    else if c.isUpper then acc.reverse :: splitWordsAux cs [c]
    else splitWordsAux cs (c :: acc)

/-- Split a string into its case/separator-delimited words. -/
def splitWords (s : String) : List String :=
  ((splitWordsAux s.data []).filter (fun w => !w.isEmpty)).map String.mk

/-- Lowercase every character of a string. -/
def lowerStr (s : String) : String :=
  String.mk (s.data.map Char.toLower)

/-- Uppercase the first character of a word and lowercase the rest. -/
def capitalizeWord (s : String) : String :=
  match s.data with
  | [] => ""
  | c :: cs => String.mk (c.toUpper :: cs.map Char.toLower)

/-- Models the radash `snake` helper: words joined by underscores, lowercased. -/
def snake (s : String) : String :=
  String.intercalate "_" ((splitWords s).map lowerStr)

/-- Models the radash `camel` helper: first word lowercased, the rest capitalized. -/
def camel (s : String) : String :=
  match splitWords s with
  | [] => ""
  | w :: ws => String.join (lowerStr w :: ws.map capitalizeWord)

/-- A (possibly wrapped) GraphQL field type, as `graphql-js` hands it to the
plugin.  Leaves carry the named type's kind and name, which is all the
flattening recursion (`getInnerSchemaType`) consults. -/
inductive GType where
  | nonNull (ofType : GType)
  | list (ofType : GType)
  | scalar (name : String)
  | enum (name : String)
  | object (name : String)
  | inputObject (name : String)
deriving DecidableEq

/-- A named type definition registered in the schema's type map.  Object and
input-object definitions carry their field map (name-keyed, in declaration
order), which is what `getFields()` returns. -/
inductive TypeDef where
  | scalarDef
  | enumDef
  | objectDef (fields : List (String × GType))
  | inputObjectDef (fields : List (String × GType))
deriving DecidableEq

/-- The `GraphQLSchema` object: a type map (for `schema.getType(name)`) and
the optional mutation type, represented directly by its field map (what
`schema.getMutationType().getFields()` would return). -/
structure Schema where
  types : List (String × TypeDef)
  mutation : Option (List (String × GType))
deriving DecidableEq

/-- `schema.getType(name)`: look a named type up in the type map. -/
def Schema.getType (schema : Schema) (name : String) : Option TypeDef :=
  List.lookup name schema.types

/-- `isObjectType` from `graphql-js`, on a type definition. -/
def isObjectTypeDef : TypeDef → Bool
  | .objectDef _ => true
  | _ => false

/-- `isInputObjectType` from `graphql-js`, on a type definition. -/
def isInputObjectTypeDef : TypeDef → Bool
  | .inputObjectDef _ => true
  | _ => false

/-- `isObjectType` applied to a possibly-undefined lookup result. -/
def isObjectTypeOpt : Option TypeDef → Bool
  | some t => isObjectTypeDef t
  | none => false

/-- `isInputObjectType` applied to a possibly-undefined lookup result. -/
def isInputObjectTypeOpt : Option TypeDef → Bool
  | some t => isInputObjectTypeDef t
  | none => false

/-- The model-type resolution conditional, verbatim from both variants:
`isObjectType(schema.getType(snakeName)) ? schema.getType(snakeName)
: schema.getType(camelName)`.  Note the fallback branch performs no kind
check; call sites guard the result with `isObjectType` again before use. -/
def resolveObjectType (schema : Schema) (snakeName camelName : String) : Option TypeDef :=
  if isObjectTypeOpt (schema.getType snakeName) then schema.getType snakeName
  else schema.getType camelName

/-- The input-type resolution conditional, verbatim from both variants:
`isInputObjectType(schema.getType(snakeName)) ? schema.getType(snakeName)
: schema.getType(camelName)`. -/
def resolveInputObjectType (schema : Schema) (snakeName camelName : String) : Option TypeDef :=
  if isInputObjectTypeOpt (schema.getType snakeName) then schema.getType snakeName
  else schema.getType camelName

/-- `mutationFields[snakeName] ?? mutationFields[camelName]` from both
variants: the nullish-coalescing lookup of the delete mutation field. -/
def deleteMutationLookup (mutationFields : List (String × GType))
    (snakeName camelName : String) : Option GType :=
  (List.lookup snakeName mutationFields).orElse
    (fun _ => List.lookup camelName mutationFields)

/-- JS truthiness of an array value: arrays are objects and every object is
truthy, including the empty array `[]`. -/
def arrayTruthy {α : Type} (_ : List α) : Bool := true

/-- JS truthiness of a nullable object value: `null` is falsy, every object
is truthy, including the empty record `{}`. -/
def objTruthy {α : Type} : Option α → Bool
  | none => false
  | some _ => true

/-- JS truthiness of an optional number: `undefined` and `0` are falsy,
every other number is truthy. -/
def jsNumTruthy : Option Int → Bool
  | none => false
  | some n => !(n == 0)

/-- The model-resolution error message thrown by both variants
(`model ${modelName} doesn't exist, or maybe the role doesn't have any
permission`). -/
def modelNotFoundMessage (modelName : String) : String :=
  "model " ++ modelName ++ " doesn\x27t exist, or maybe the role doesn\x27t have any permission"

/-- Both variants start with `schema.getMutationType().getFields()`; when the
schema has no mutation type, `getMutationType()` is undefined and the
`.getFields()` call throws a `TypeError` at runtime.  Embedded as this
error value. -/
def noMutationTypeMessage : String :=
  "TypeError: cannot read getFields of undefined mutation type"

/-- The innermost type under any chain of non-null and list wrappers. -/
def innerBase : GType → GType
  | .nonNull t => innerBase t
  | .list t => innerBase t
  | t => t

/-- Whether a type is an object or input-object type. -/
def isObjectLike : GType → Bool
  | .object _ => true
  | .inputObject _ => true
  | _ => false

/-- Follows the spec's words (§4.1 Type Resolver): look the snake_case name
up; if found AND of the expected kind use it; otherwise look the camelCase
name up under the same kind check; otherwise the handle is absent.  Used to
compare the source's resolution conditionals against the spec. -/
def specResolveChain (lookup : String → Option TypeDef) (isKind : TypeDef → Bool)
    (snakeName camelName : String) : Option TypeDef :=
  match Option.filter isKind (lookup snakeName) with
  | some t => some t
  | none => Option.filter isKind (lookup camelName)

/-- Follows the spec's words (§4.1): for the delete capability, look up the
snake_case delete-field name first in the mutation fields, then its
camelCase form. -/
def specDeleteChain (mutationFields : List (String × GType))
    (snakeName camelName : String) : Option GType :=
  match List.lookup snakeName mutationFields with
  | some f => some f
  | none => List.lookup camelName mutationFields

namespace V1

/-- Flattened field descriptor of `src/src/index.ts` (`ModelFieldSchema`):
carries the field name inline. -/
structure ModelFieldSchema where
  name : String
  type : Option String
  array : Bool
  nullable : Bool
deriving DecidableEq

/-- Permission flags of `src/src/index.ts`. -/
structure Permissions where
  get : Bool
  insert : Bool
  update : Bool
  delete : Bool
deriving DecidableEq

/-- Per-model result record of `src/src/index.ts` (`ModelSchemas`). -/
structure ModelSchemas where
  primaryKeys : List ModelFieldSchema
  permissions : Permissions
  model : List ModelFieldSchema
  insertInput : List ModelFieldSchema
  setInput : List ModelFieldSchema
deriving DecidableEq

/-- Options of `src/src/index.ts` (`BuildModelSchemaOptions`).
`disableFields` is optional: the plugin forwards the raw config value and
`buildModelSchema` guards it with optional chaining. -/
structure BuildModelSchemaOptions where
  disableFields : Option (List String)
  primaryKeyNames : List String
deriving DecidableEq

/-- Plugin configuration of `src/src/index.ts` (`HasuraGraphQLConfig`). -/
structure HasuraGraphQLConfig where
  models : List String
  maxDepth : Option Int
  disableFields : Option (List String)
  primaryKeyNames : Option (List String)
deriving DecidableEq

/-- `getInnerSchemaType` of `src/src/index.ts`: recursively unwrap non-null
and list wrappers into the accumulator; drop object/input-object types;
record the innermost scalar/enum name. -/
def getInnerSchemaType : GType → ModelFieldSchema → Option ModelFieldSchema
  | .nonNull ofType, schema => getInnerSchemaType ofType { schema with nullable := false }
  | .object _, _ => none
  | .inputObject _, _ => none
  | .list ofType, schema => getInnerSchemaType ofType { schema with array := true }
  | .scalar n, schema => some { schema with type := some n }
  | .enum n, schema => some { schema with type := some n }

/-- The exclusion check of `src/src/index.ts` `buildModelSchema`:
`options.disableFields?.some((disabledTerm) => key.includes(disabledTerm))`;
optional chaining makes an absent list yield `undefined`, which is falsy. -/
def fieldDisabled (options : BuildModelSchemaOptions) (key : String) : Bool :=
  match options.disableFields with
  | none => false
  | some l => l.any (fun disabledTerm => strIncludes key disabledTerm)

/-- The body of the `reduce` inside `buildModelSchema` of `src/src/index.ts`. -/
def buildModelSchemaStep (options : BuildModelSchemaOptions)
    (acc : List ModelFieldSchema) (kt : String × GType) : List ModelFieldSchema :=
  if fieldDisabled options kt.1 then acc
  else
    match getInnerSchemaType kt.2
        { name := kt.1, type := none, array := false, nullable := true } with
    | none => acc
    | some schema => acc ++ [schema]

/-- `buildModelSchema` of `src/src/index.ts`: flatten a resolved type's
field map into a list of descriptors. -/
def buildModelSchema (fields : List (String × GType))
    (options : BuildModelSchemaOptions) : List ModelFieldSchema :=
  fields.foldl (buildModelSchemaStep options) []

/-- The loop body of `buildModelSchemas` of `src/src/index.ts`, for a single
model name (the mutation fields are extracted once before the loop). -/
def modelResult (schema : Schema) (mutationFields : List (String × GType))
    (options : BuildModelSchemaOptions) (modelName : String) : ModelSchemas :=
  let fieldName := snake modelName
  let fieldInsertInputName := snake (fieldName ++ "_insert_input")
  let fieldSetInputName := snake (fieldName ++ "_set_input")
  let deleteFieldName := "delete_" ++ fieldName
  let fieldPkColumnsName := snake (fieldName ++ "_pk_columns_input")
  let fieldNameCamelCase := camel modelName
  let fieldInsertInputNameCamelCase := camel fieldInsertInputName
  let fieldSetInputNameCamelCase := camel fieldSetInputName
  let deleteFieldNameCamelCase := camel deleteFieldName
  let fieldPkColumnsNameCamelCase := camel fieldPkColumnsName
  let modelType := resolveObjectType schema fieldName fieldNameCamelCase
  let insertInputType := resolveInputObjectType schema fieldInsertInputName fieldInsertInputNameCamelCase
  let setInputType := resolveInputObjectType schema fieldSetInputName fieldSetInputNameCamelCase
  let pkInputType := resolveInputObjectType schema fieldPkColumnsName fieldPkColumnsNameCamelCase
  let canDelete := (deleteMutationLookup mutationFields deleteFieldName deleteFieldNameCamelCase).isSome
  let modelSchemas :=
    match modelType with
    | some (TypeDef.objectDef fs) => buildModelSchema fs options
    | _ => []
  let insertInput :=
    match insertInputType with
    | some (TypeDef.inputObjectDef fs) => buildModelSchema fs options
    | _ => []
  let setInput :=
    match setInputType with
    | some (TypeDef.inputObjectDef fs) => buildModelSchema fs options
    | _ => []
  let primaryKeys :=
    match pkInputType with
    | some (TypeDef.inputObjectDef fs) => buildModelSchema fs options
    | _ => modelSchemas.filter (fun m => options.primaryKeyNames.contains m.name)
  { primaryKeys := primaryKeys
    model := modelSchemas
    insertInput := insertInput
    setInput := setInput
    permissions :=
      { get := decide (modelSchemas.length > 0)
        insert := decide (insertInput.length > 0)
        update := decide (setInput.length > 0)
        delete := canDelete } }

/-- `buildModelSchemas` of `src/src/index.ts`.  The guard
`!result.model && !result.insertInput && !result.setInput` tests three
array values, which are always truthy in JS (`arrayTruthy`), so the branch
mirrors the source faithfully including that the throw is unreachable. -/
def buildModelSchemas (models : List String) (schema : Schema)
    (options : BuildModelSchemaOptions) :
    Except String (List (String × ModelSchemas)) :=
  match schema.mutation with
  | none => Except.error noMutationTypeMessage
  | some mutationFields =>
    models.foldlM (fun acc modelName =>
      let result := modelResult schema mutationFields options modelName
      if !arrayTruthy result.model && !arrayTruthy result.insertInput
          && !arrayTruthy result.setInput then
        Except.error (modelNotFoundMessage modelName)
      else
        Except.ok (acc ++ [(modelName, result)])) []

/-- `plugin` of `src/src/index.ts`: destructures the config with the
`primaryKeyNames = ["id"]` default and delegates to `buildModelSchemas`
(the JSON serialization of the result is out of scope). -/
def plugin (schema : Schema) (config : HasuraGraphQLConfig) :
    Except String (List (String × ModelSchemas)) :=
  buildModelSchemas config.models schema
    { disableFields := config.disableFields
      primaryKeyNames := config.primaryKeyNames.getD ["id"] }

/-- `validate` of `src/src/index.ts`:
`if (_config.maxDepth && _config.maxDepth <= 0) throw ...`.  The first
conjunct is JS truthiness of the optional number (`jsNumTruthy`). -/
def validate (config : HasuraGraphQLConfig) : Except String Unit :=
  if jsNumTruthy config.maxDepth && decide (config.maxDepth.getD 0 ≤ 0) then
    Except.error "maxDepth must be larger than 0"
  else
    Except.ok ()

end V1

namespace V2

/-- Flattened field descriptor of `src/unnamed/part_000` (`ModelFieldSchema`):
no name — the field name is the key of the surrounding record. -/
structure ModelFieldSchema where
  type : Option String
  array : Bool
  nullable : Bool
deriving DecidableEq

/-- Permission flags of `src/unnamed/part_000` (no `get` flag). -/
structure Permissions where
  insert : Bool
  update : Bool
  delete : Bool
deriving DecidableEq

/-- Per-model result record of `src/unnamed/part_000` (`ModelSchemas`).
The three collections are `Record | null` in the source, hence `Option`. -/
structure ModelSchemas where
  permissions : Permissions
  model : Option (List (String × ModelFieldSchema))
  insertInput : Option (List (String × ModelFieldSchema))
  setInput : Option (List (String × ModelFieldSchema))
deriving DecidableEq

/-- Options of `src/unnamed/part_000` (`BuildModelSchemaOptions`). -/
structure BuildModelSchemaOptions where
  disableAggregateFields : Bool
  disableFields : Option (List String)
deriving DecidableEq

/-- Plugin configuration of `src/unnamed/part_000` (`HasuraGraphQLConfig`). -/
structure HasuraGraphQLConfig where
  commentDescriptions : Option Bool
  tables : List String
  maxDepth : Option Int
  disableAggregateFields : Option Bool
  disableFields : Option (List String)
deriving DecidableEq

/-- `getInnerSchemaType` of `src/unnamed/part_000`: identical recursion to
variant 1, over the name-less descriptor. -/
def getInnerSchemaType : GType → ModelFieldSchema → Option ModelFieldSchema
  | .nonNull ofType, schema => getInnerSchemaType ofType { schema with nullable := false }
  | .object _, _ => none
  | .inputObject _, _ => none
  | .list ofType, schema => getInnerSchemaType ofType { schema with array := true }
  | .scalar n, schema => some { schema with type := some n }
  | .enum n, schema => some { schema with type := some n }

/-- The exclusion check of `src/unnamed/part_000` `buildModelSchema`:
`(options.disableAggregateFields && key.includes("_aggregate")) ||
options.disableFields?.includes(key)`. -/
def fieldDisabled (options : BuildModelSchemaOptions) (key : String) : Bool :=
  (options.disableAggregateFields && strIncludes key "_aggregate")
    || match options.disableFields with
       | none => false
       | some l => l.contains key

/-- The body of the `reduce` inside `buildModelSchema` of
`src/unnamed/part_000`. -/
def buildModelSchemaStep (options : BuildModelSchemaOptions)
    (acc : List (String × ModelFieldSchema)) (kt : String × GType) :
    List (String × ModelFieldSchema) :=
  if fieldDisabled options kt.1 then acc
  else
    match getInnerSchemaType kt.2 { type := none, array := false, nullable := true } with
    | none => acc
    | some schema => acc ++ [(kt.1, schema)]

/-- `buildModelSchema` of `src/unnamed/part_000`: flatten a resolved type's
field map into a name-keyed record (embedded as an association list in
declaration order, keys unique because the source field map's are). -/
def buildModelSchema (fields : List (String × GType))
    (options : BuildModelSchemaOptions) : List (String × ModelFieldSchema) :=
  fields.foldl (buildModelSchemaStep options) []

/-- The loop body of `buildModelSchemas` of `src/unnamed/part_000`, for a
single model name.  Unresolved types yield `null` (`none`) collections, and
the permission flags are `Boolean(insertInput)` / `Boolean(setInput)`
(`objTruthy`), i.e. they reflect resolution, not non-emptiness. -/
def modelResult (schema : Schema) (mutationFields : List (String × GType))
    (options : BuildModelSchemaOptions) (modelName : String) : ModelSchemas :=
  let fieldName := snake modelName
  let fieldInsertInputName := snake (fieldName ++ "_insert_input")
  let fieldSetInputName := snake (fieldName ++ "_set_input")
  let deleteFieldName := "delete_" ++ fieldName
  let fieldNameCamelCase := camel modelName
  let fieldInsertInputNameCamelCase := camel fieldInsertInputName
  let fieldSetInputNameCamelCase := camel fieldSetInputName
  let deleteFieldNameCamelCase := camel deleteFieldName
  let modelType := resolveObjectType schema fieldName fieldNameCamelCase
  let insertInputType := resolveInputObjectType schema fieldInsertInputName fieldInsertInputNameCamelCase
  let setInputType := resolveInputObjectType schema fieldSetInputName fieldSetInputNameCamelCase
  let canDelete := (deleteMutationLookup mutationFields deleteFieldName deleteFieldNameCamelCase).isSome
  let insertInput :=
    match insertInputType with
    | some (TypeDef.inputObjectDef fs) => some (buildModelSchema fs options)
    | _ => none
  let setInput :=
    match setInputType with
    | some (TypeDef.inputObjectDef fs) => some (buildModelSchema fs options)
    | _ => none
  { model :=
      match modelType with
      | some (TypeDef.objectDef fs) => some (buildModelSchema fs options)
      | _ => none
    insertInput := insertInput
    setInput := setInput
    permissions :=
      { insert := objTruthy insertInput
        update := objTruthy setInput
        delete := canDelete } }

/-- `buildModelSchemas` of `src/unnamed/part_000`.  Here the guard
`!result.model && !result.insertInput && !result.setInput` tests three
`Record | null` values (`objTruthy`), so the throw fires exactly when all
three types failed to resolve. -/
def buildModelSchemas (tables : List String) (schema : Schema)
    (options : BuildModelSchemaOptions) :
    Except String (List (String × ModelSchemas)) :=
  match schema.mutation with
  | none => Except.error noMutationTypeMessage
  | some mutationFields =>
    tables.foldlM (fun acc modelName =>
      let result := modelResult schema mutationFields options modelName
      if !objTruthy result.model && !objTruthy result.insertInput
          && !objTruthy result.setInput then
        Except.error (modelNotFoundMessage modelName)
      else
        Except.ok (acc ++ [(modelName, result)])) []

/-- `plugin` of `src/unnamed/part_000`: forwards `tables`,
`disableAggregateFields` and `disableFields` to `buildModelSchemas`
(an undefined `disableAggregateFields` is falsy at its only use site,
hence `getD false`). -/
def plugin (schema : Schema) (config : HasuraGraphQLConfig) :
    Except String (List (String × ModelSchemas)) :=
  buildModelSchemas config.tables schema
    { disableAggregateFields := config.disableAggregateFields.getD false
      disableFields := config.disableFields }

/-- `validate` of `src/unnamed/part_000`: textually identical to variant 1. -/
def validate (config : HasuraGraphQLConfig) : Except String Unit :=
  if jsNumTruthy config.maxDepth && decide (config.maxDepth.getD 0 ≤ 0) then
    Except.error "maxDepth must be larger than 0"
  else
    Except.ok ()

end V2

/-- `fieldEntry` names the per-field outcome of one `buildModelSchema` loop
iteration of variant 1 (exclusion check, then flattening): `none` when the
field is dropped, `some` descriptor when it is kept. -/
def V1.fieldEntry (options : V1.BuildModelSchemaOptions) (kt : String × GType) :
    Option V1.ModelFieldSchema :=
  if V1.fieldDisabled options kt.1 then none
  else V1.getInnerSchemaType kt.2
    { name := kt.1, type := none, array := false, nullable := true }

/-- A schema that declares all three `user` types but has no mutation type. -/
def mutationlessSchema : Schema :=
  { types := [("user", TypeDef.objectDef [("id", GType.nonNull (GType.scalar "ID"))]),
              ("user_insert_input", TypeDef.inputObjectDef [("name", GType.scalar "String")]),
              ("user_set_input", TypeDef.inputObjectDef [("name", GType.scalar "String")])]
    mutation := none }

/-- Folding with pointwise-equal step functions gives equal results. -/
theorem foldl_fn_congr {α β : Type} {f g : β → α → β} (h : ∀ b a, f b a = g b a) :
    ∀ (l : List α) (b : β), l.foldl f b = l.foldl g b
  | [], _ => rfl
  | a :: l, b => by
    rw [List.foldl_cons, List.foldl_cons, h]
    exact foldl_fn_congr h l _

/-- The flattening recursion never changes the field name it was seeded with. -/
theorem getInnerSchemaType_name_eq (t : GType) :
    ∀ (acc s : V1.ModelFieldSchema), V1.getInnerSchemaType t acc = some s → s.name = acc.name := by
  induction t with
  | nonNull t ih =>
    intro acc s h
    simp only [V1.getInnerSchemaType] at h
    exact ih { acc with nullable := false } s h
  | list t ih =>
    intro acc s h
    simp only [V1.getInnerSchemaType] at h
    exact ih { acc with array := true } s h
  | scalar n =>
    intro acc s h
    have h' : some { acc with type := some n } = some s := h
    cases h'
    rfl
  | enum n =>
    intro acc s h
    have h' : some { acc with type := some n } = some s := h
    cases h'
    rfl
  | object n => intro acc s h; cases h
  | inputObject n => intro acc s h; cases h

/-- The flattening recursion drops every field whose innermost type is an
object or input-object type, whatever the accumulator. -/
theorem getInnerSchemaType_none_of_objectLike (t : GType) :
    isObjectLike (innerBase t) = true → ∀ acc, V1.getInnerSchemaType t acc = none := by
  induction t with
  | nonNull t ih => intro h acc; exact ih h _
  | list t ih => intro h acc; exact ih h _
  | object n => intro _ _; rfl
  | inputObject n => intro _ _; rfl
  | scalar n => intro h _; simp [innerBase, isObjectLike] at h
  | enum n => intro h _; simp [innerBase, isObjectLike] at h

/-- One loop iteration of variant 1's `buildModelSchema`, phrased through
`fieldEntry`. -/
theorem buildModelSchemaStep_eq (o : V1.BuildModelSchemaOptions)
    (acc : List V1.ModelFieldSchema) (kt : String × GType) :
    V1.buildModelSchemaStep o acc kt =
      match V1.fieldEntry o kt with
      | none => acc
      | some s => acc ++ [s] := by
  unfold V1.buildModelSchemaStep V1.fieldEntry
  cases h : V1.fieldDisabled o kt.1 <;> simp [h]

/-- Every descriptor produced by variant 1's flattening fold is either
carried in from the accumulator or is the entry of some listed field. -/
theorem mem_buildModelSchema_foldl (o : V1.BuildModelSchemaOptions) :
    ∀ (fields : List (String × GType)) (acc : List V1.ModelFieldSchema)
      (s : V1.ModelFieldSchema),
      s ∈ fields.foldl (V1.buildModelSchemaStep o) acc →
      s ∈ acc ∨ ∃ kt, kt ∈ fields ∧ V1.fieldEntry o kt = some s := by
  intro fields
  induction fields with
  | nil => intro acc s h; exact Or.inl h
  | cons kt rest ih =>
    intro acc s h
    rw [List.foldl_cons] at h
    rcases ih _ s h with h' | ⟨kt', hm, he⟩
    · rw [buildModelSchemaStep_eq] at h'
      rcases hfe : V1.fieldEntry o kt with _ | s'
      · rw [hfe] at h'
        exact Or.inl h'
      · rw [hfe] at h'
        rcases List.mem_append.mp h' with h'' | h''
        · exact Or.inl h''
        · have hs : s = s' := List.mem_singleton.mp h''
          subst hs
          exact Or.inr ⟨kt, List.mem_cons_self kt rest, hfe⟩
    · exact Or.inr ⟨kt', List.mem_cons_of_mem _ hm, he⟩

/-- In a field list with no duplicate names, a name determines its type. -/
theorem keyUnique : ∀ (l : List (String × GType)) (k : String) (a b : GType),
    (l.map Prod.fst).Nodup → (k, a) ∈ l → (k, b) ∈ l → a = b := by
  intro l
  induction l with
  | nil => intro k a b _ ha _; cases ha
  | cons kt rest ih =>
    intro k a b hnd ha hb
    rw [List.map_cons, List.nodup_cons] at hnd
    rcases List.mem_cons.mp ha with ha' | ha'
    · rcases List.mem_cons.mp hb with hb' | hb'
      · exact congrArg Prod.snd (ha'.trans hb'.symm)
      · exfalso
        apply hnd.1
        rw [← ha']
        exact List.mem_map.mpr ⟨(k, b), hb', rfl⟩
    · rcases List.mem_cons.mp hb with hb' | hb'
      · exfalso
        apply hnd.1
        rw [← hb']
        exact List.mem_map.mpr ⟨(k, a), ha', rfl⟩
      · exact ih k a b hnd.2 ha' hb'

/-- `fieldEntry` names the per-field outcome of one `buildModelSchema` loop
iteration of variant 2: `none` when the field is dropped, `some` keyed
descriptor when it is kept. -/
def V2.fieldEntry (options : V2.BuildModelSchemaOptions) (kt : String × GType) :
    Option (String × V2.ModelFieldSchema) :=
  if V2.fieldDisabled options kt.1 then none
  else
    match V2.getInnerSchemaType kt.2 { type := none, array := false, nullable := true } with
    | none => none
    | some schema => some (kt.1, schema)

/-- Variant 2's flattening recursion also drops every field whose innermost
type is an object or input-object type, whatever the accumulator. -/
theorem getInnerSchemaType_none_of_objectLike_v2 (t : GType) :
    isObjectLike (innerBase t) = true → ∀ acc, V2.getInnerSchemaType t acc = none := by
  induction t with
  | nonNull t ih => intro h acc; exact ih h _
  | list t ih => intro h acc; exact ih h _
  | object n => intro _ _; rfl
  | inputObject n => intro _ _; rfl
  | scalar n => intro h _; simp [innerBase, isObjectLike] at h
  | enum n => intro h _; simp [innerBase, isObjectLike] at h

/-- One loop iteration of variant 2's `buildModelSchema`, phrased through
`V2.fieldEntry`. -/
theorem buildModelSchemaStep_v2_eq (o : V2.BuildModelSchemaOptions)
    (acc : List (String × V2.ModelFieldSchema)) (kt : String × GType) :
    V2.buildModelSchemaStep o acc kt =
      match V2.fieldEntry o kt with
      | none => acc
      | some p => acc ++ [p] := by
  unfold V2.buildModelSchemaStep V2.fieldEntry
  cases h : V2.fieldDisabled o kt.1 <;>
    cases hg : V2.getInnerSchemaType kt.2 { type := none, array := false, nullable := true } <;>
    simp [h, hg]

/-- Every keyed descriptor produced by variant 2's flattening fold is either
carried in from the accumulator or is the entry of some listed field. -/
theorem mem_buildModelSchema_foldl_v2 (o : V2.BuildModelSchemaOptions) :
    ∀ (fields : List (String × GType)) (acc : List (String × V2.ModelFieldSchema))
      (p : String × V2.ModelFieldSchema),
      p ∈ fields.foldl (V2.buildModelSchemaStep o) acc →
      p ∈ acc ∨ ∃ kt, kt ∈ fields ∧ V2.fieldEntry o kt = some p := by
  intro fields
  induction fields with
  | nil => intro acc p h; exact Or.inl h
  | cons kt rest ih =>
    intro acc p h
    rw [List.foldl_cons] at h
    rcases ih _ p h with h' | ⟨kt', hm, he⟩
    · rw [buildModelSchemaStep_v2_eq] at h'
      rcases hfe : V2.fieldEntry o kt with _ | p'
      · rw [hfe] at h'
        exact Or.inl h'
      · rw [hfe] at h'
        rcases List.mem_append.mp h' with h'' | h''
        · exact Or.inl h''
        · have hp : p = p' := List.mem_singleton.mp h''
          subst hp
          exact Or.inr ⟨kt, List.mem_cons_self kt rest, hfe⟩
    · exact Or.inr ⟨kt', List.mem_cons_of_mem _ hm, he⟩

/-- C1: the spec says both variants raise the model-resolution error when
none of the model, insert-input and set-input types resolve. In variant 1
the guard `!result.model && !result.insertInput && !result.setInput` tests
arrays, which are always truthy in JS, so the throw is unreachable: on a
schema where nothing resolves for "user", variant 1 returns a normal record
of empty lists while variant 2 (whose collections are `Record | null`)
raises the error naming the model. -/
theorem buildModelSchemas_v1_missing_model_no_error :
    V1.buildModelSchemas ["user"] { types := [], mutation := some [] }
        { disableFields := none, primaryKeyNames := ["id"] }
      = Except.ok [("user",
          { primaryKeys := []
            permissions := { get := false, insert := false, update := false, delete := false }
            model := [], insertInput := [], setInput := [] })] ∧
    V2.buildModelSchemas ["user"] { types := [], mutation := some [] }
        { disableAggregateFields := false, disableFields := none }
      = Except.error (modelNotFoundMessage "user") :=
  ⟨rfl, rfl⟩

/-- C2: the spec says `validate` fails whenever `maxDepth` is present and
≤ 0, in particular at 0; but in `if (maxDepth && maxDepth <= 0)` the number
0 is falsy, so both variants accept `maxDepth = 0` even though the error
message demands a value larger than 0. Negative values do fail. -/
theorem validate_accepts_maxDepth_zero :
    V1.validate { models := [], maxDepth := some 0, disableFields := none,
                  primaryKeyNames := none } = Except.ok () ∧
    V2.validate { commentDescriptions := none, tables := [], maxDepth := some 0,
                  disableAggregateFields := none, disableFields := none } = Except.ok () ∧
    V1.validate { models := [], maxDepth := some (-1), disableFields := none,
                  primaryKeyNames := none } = Except.error "maxDepth must be larger than 0" :=
  ⟨rfl, rfl, rfl⟩

/-- C3 counterexample: on the shape `[String!]` (nullable list of non-null
scalar) the unwrap routine does NOT produce `nullable = true` as the claim
states: the inner non-null wrapper sets `nullable := false`. -/
theorem getInnerSchemaType_nullable_list_cex :
    V1.getInnerSchemaType (GType.list (GType.nonNull (GType.scalar "String")))
        { name := "f", type := none, array := false, nullable := true }
      ≠ some { name := "f", type := some "String", array := true, nullable := true } := by
  decide

/-- C3 amended: for every field whose type is `[T!]` with `T` scalar, both
variants produce `nullable = false`, `array = true`, `type = T`: the
nullable flag records every non-null wrapper at any depth, not only the
outermost wrapper chain. -/
theorem getInnerSchemaType_list_nonNull_scalar (t nm : String) :
    V1.getInnerSchemaType (GType.list (GType.nonNull (GType.scalar t)))
        { name := nm, type := none, array := false, nullable := true }
      = some { name := nm, type := some t, array := true, nullable := false } ∧
    V2.getInnerSchemaType (GType.list (GType.nonNull (GType.scalar t)))
        { type := none, array := false, nullable := true }
      = some { type := some t, array := true, nullable := false } :=
  ⟨rfl, rfl⟩

/-- C4: for every scalar or enum type `T`, both variants map `[T]` to
`{array := true, nullable := true}`, `[T]!` to `{array := true,
nullable := false}`, `T!` to `{array := false, nullable := false}` and bare
`T` to `{array := false, nullable := true}`, with `type = T` throughout. -/
theorem getInnerSchemaType_wrapper_shapes (t nm : String) :
    (V1.getInnerSchemaType (GType.list (GType.scalar t))
        { name := nm, type := none, array := false, nullable := true }
      = some { name := nm, type := some t, array := true, nullable := true }) ∧
    (V1.getInnerSchemaType (GType.nonNull (GType.list (GType.scalar t)))
        { name := nm, type := none, array := false, nullable := true }
      = some { name := nm, type := some t, array := true, nullable := false }) ∧
    (V1.getInnerSchemaType (GType.nonNull (GType.scalar t))
        { name := nm, type := none, array := false, nullable := true }
      = some { name := nm, type := some t, array := false, nullable := false }) ∧
    (V1.getInnerSchemaType (GType.scalar t)
        { name := nm, type := none, array := false, nullable := true }
      = some { name := nm, type := some t, array := false, nullable := true }) ∧
    (V1.getInnerSchemaType (GType.list (GType.enum t))
        { name := nm, type := none, array := false, nullable := true }
      = some { name := nm, type := some t, array := true, nullable := true }) ∧
    (V1.getInnerSchemaType (GType.nonNull (GType.list (GType.enum t)))
        { name := nm, type := none, array := false, nullable := true }
      = some { name := nm, type := some t, array := true, nullable := false }) ∧
    (V1.getInnerSchemaType (GType.nonNull (GType.enum t))
        { name := nm, type := none, array := false, nullable := true }
      = some { name := nm, type := some t, array := false, nullable := false }) ∧
    (V1.getInnerSchemaType (GType.enum t)
        { name := nm, type := none, array := false, nullable := true }
      = some { name := nm, type := some t, array := false, nullable := true }) ∧
    (V2.getInnerSchemaType (GType.list (GType.scalar t))
        { type := none, array := false, nullable := true }
      = some { type := some t, array := true, nullable := true }) ∧
    (V2.getInnerSchemaType (GType.nonNull (GType.list (GType.scalar t)))
        { type := none, array := false, nullable := true }
      = some { type := some t, array := true, nullable := false }) ∧
    (V2.getInnerSchemaType (GType.nonNull (GType.scalar t))
        { type := none, array := false, nullable := true }
      = some { type := some t, array := false, nullable := false }) ∧
    (V2.getInnerSchemaType (GType.scalar t)
        { type := none, array := false, nullable := true }
      = some { type := some t, array := false, nullable := true }) ∧
    (V2.getInnerSchemaType (GType.list (GType.enum t))
        { type := none, array := false, nullable := true }
      = some { type := some t, array := true, nullable := true }) ∧
    (V2.getInnerSchemaType (GType.nonNull (GType.list (GType.enum t)))
        { type := none, array := false, nullable := true }
      = some { type := some t, array := true, nullable := false }) ∧
    (V2.getInnerSchemaType (GType.nonNull (GType.enum t))
        { type := none, array := false, nullable := true }
      = some { type := some t, array := false, nullable := false }) ∧
    (V2.getInnerSchemaType (GType.enum t)
        { type := none, array := false, nullable := true }
      = some { type := some t, array := false, nullable := true }) :=
  ⟨rfl, rfl, rfl, rfl, rfl, rfl, rfl, rfl, rfl, rfl, rfl, rfl, rfl, rfl, rfl, rfl⟩

/-- C5: for every field list with unique names (as GraphQL field maps have),
a field whose type unwraps through any chain of non-null and list wrappers
to an object or input-object type contributes no descriptor to the
flattened result of `buildModelSchema`, in both variants: no descriptor
named after the field in variant 1's list, no entry keyed by the field in
variant 2's record. -/
theorem buildModelSchema_drops_object_fields (fields : List (String × GType))
    (o : V1.BuildModelSchemaOptions) (o2 : V2.BuildModelSchemaOptions)
    (key : String) (ft : GType)
    (hnd : (fields.map Prod.fst).Nodup)
    (hmem : (key, ft) ∈ fields)
    (hobj : isObjectLike (innerBase ft) = true) :
    (V1.buildModelSchema fields o).all (fun s => s.name != key) = true ∧
    (V2.buildModelSchema fields o2).all (fun p => p.1 != key) = true := by
  constructor
  · rw [List.all_eq_true]
    intro s hs
    rcases mem_buildModelSchema_foldl o fields [] s hs with h | ⟨kt, hkt, he⟩
    · cases h
    · obtain ⟨k', t'⟩ := kt
      have he' : (if V1.fieldDisabled o k' then none
          else V1.getInnerSchemaType t'
            { name := k', type := none, array := false, nullable := true }) = some s := he
      cases hcd : V1.fieldDisabled o k' with
      | true => rw [hcd] at he'; simp at he'
      | false =>
        rw [hcd] at he'
        simp only [Bool.false_eq_true, if_false] at he'
        have hname : s.name = k' := getInnerSchemaType_name_eq t' _ s he'
        simp only [bne_iff_ne, ne_eq]
        intro hkey
        have hk1 : k' = key := by rw [← hname, hkey]
        subst hk1
        have ht : t' = ft := keyUnique fields k' t' ft hnd hkt hmem
        rw [ht, getInnerSchemaType_none_of_objectLike ft hobj _] at he'
        cases he'
  · rw [List.all_eq_true]
    intro p hp
    rcases mem_buildModelSchema_foldl_v2 o2 fields [] p hp with h | ⟨kt, hkt, he⟩
    · cases h
    · obtain ⟨k', t'⟩ := kt
      have he' : (if V2.fieldDisabled o2 k' then none
          else
            match V2.getInnerSchemaType t'
                { type := none, array := false, nullable := true } with
            | none => none
            | some schema => some (k', schema)) = some p := he
      cases hcd : V2.fieldDisabled o2 k' with
      | true => rw [hcd] at he'; simp at he'
      | false =>
        rw [hcd] at he'
        simp only [Bool.false_eq_true, if_false] at he'
        cases hg : V2.getInnerSchemaType t'
            { type := none, array := false, nullable := true } with
        | none => rw [hg] at he'; cases he'
        | some s =>
          rw [hg] at he'
          have hp1 : p.1 = k' := by cases he'; rfl
          simp only [bne_iff_ne, ne_eq]
          intro hkey
          have hk1 : k' = key := by rw [← hp1, hkey]
          subst hk1
          have ht : t' = ft := keyUnique fields k' t' ft hnd hkt hmem
          rw [ht, getInnerSchemaType_none_of_objectLike_v2 ft hobj _] at hg
          cases hg

/-- C5 witness: on a concrete type with an `id` scalar field and a `friend`
object-typed field, neither variant's flattened result contains a `friend`
descriptor. -/
theorem buildModelSchema_drops_object_fields_witness :
    (V1.buildModelSchema [("id", GType.scalar "ID"), ("friend", GType.object "user")]
        { disableFields := none, primaryKeyNames := ["id"] }).all
      (fun s => s.name != "friend") = true ∧
    (V2.buildModelSchema [("id", GType.scalar "ID"), ("friend", GType.object "user")]
        { disableAggregateFields := false, disableFields := none }).all
      (fun p => p.1 != "friend") = true :=
  buildModelSchema_drops_object_fields _ _ _ "friend" (GType.object "user")
    (by decide) (by decide) (by decide)

/-- C6 counterexample: in variant 2, on a schema where `user_insert_input`
resolves but its only field is object-typed (so the flattened collection is
empty), `permissions.insert` is still `true` — `Boolean(insertInput)` tests
resolution (`{}` is truthy), not non-emptiness, refuting the claimed
"insert ⇔ collection non-empty" invariant for that variant. -/
theorem permissions_insert_empty_collection_cex :
    V2.buildModelSchemas ["user"]
        { types := [("user_insert_input",
            TypeDef.inputObjectDef [("friend", GType.object "user")])]
          mutation := some [] }
        { disableAggregateFields := false, disableFields := none }
      = Except.ok [("user",
          { model := none, insertInput := some [], setInput := none,
            permissions := { insert := true, update := false, delete := false } })] :=
  rfl

/-- C6 amended: in variant 1, get/insert/update hold iff the corresponding
flattened collection is non-empty; in variant 2, insert/update hold iff the
corresponding input type resolved (collection present, possibly empty); in
both variants, delete holds iff a mutation field named `delete_<model>` or
its camelCase equivalent exists, independently of model-type resolution. -/
theorem permissions_characterization (schema : Schema) (mf : List (String × GType))
    (o1 : V1.BuildModelSchemaOptions) (o2 : V2.BuildModelSchemaOptions) (name : String) :
    ((V1.modelResult schema mf o1 name).permissions.get = true ↔
        (V1.modelResult schema mf o1 name).model ≠ []) ∧
    ((V1.modelResult schema mf o1 name).permissions.insert = true ↔
        (V1.modelResult schema mf o1 name).insertInput ≠ []) ∧
    ((V1.modelResult schema mf o1 name).permissions.update = true ↔
        (V1.modelResult schema mf o1 name).setInput ≠ []) ∧
    ((V1.modelResult schema mf o1 name).permissions.delete = true ↔
        ((List.lookup ("delete_" ++ snake name) mf).isSome = true ∨
         (List.lookup (camel ("delete_" ++ snake name)) mf).isSome = true)) ∧
    ((V2.modelResult schema mf o2 name).permissions.insert = true ↔
        (V2.modelResult schema mf o2 name).insertInput ≠ none) ∧
    ((V2.modelResult schema mf o2 name).permissions.update = true ↔
        (V2.modelResult schema mf o2 name).setInput ≠ none) ∧
    ((V2.modelResult schema mf o2 name).permissions.delete = true ↔
        ((List.lookup ("delete_" ++ snake name) mf).isSome = true ∨
         (List.lookup (camel ("delete_" ++ snake name)) mf).isSome = true)) := by
  have hlen : ∀ (L : List V1.ModelFieldSchema),
      (decide (L.length > 0) = true ↔ L ≠ []) := by
    intro L; cases L <;> simp
  have hor : ∀ (a b : Option GType),
      ((a.orElse (fun _ => b)).isSome = true ↔ (a.isSome = true ∨ b.isSome = true)) := by
    intro a b; cases a <;> cases b <;> simp [Option.orElse]
  have hobj : ∀ {α : Type} (o : Option α), (objTruthy o = true ↔ o ≠ none) := by
    intro α o; cases o <;> simp [objTruthy]
  exact ⟨hlen _, hlen _, hlen _, hor _ _, hobj _, hobj _, hor _ _⟩

/-- C7: in variant 1, if the pk-columns input type resolves to an
input-object type then `primaryKeys` is its flattening; otherwise it is the
flattened model field list filtered to the configured `primaryKeyNames`,
and the `plugin` entry point defaults `primaryKeyNames` to `["id"]` when
the option is absent. -/
theorem primaryKeys_resolution (schema : Schema) (mf : List (String × GType))
    (o : V1.BuildModelSchemaOptions) (name : String)
    (ms : List String) (md : Option Int) (df : Option (List String)) :
    ((V1.modelResult schema mf o name).primaryKeys =
      match resolveInputObjectType schema (snake (snake name ++ "_pk_columns_input"))
          (camel (snake (snake name ++ "_pk_columns_input"))) with
      | some (TypeDef.inputObjectDef fs) => V1.buildModelSchema fs o
      | _ => (V1.modelResult schema mf o name).model.filter
               (fun m => o.primaryKeyNames.contains m.name)) ∧
    V1.plugin schema { models := ms, maxDepth := md, disableFields := df,
                       primaryKeyNames := none }
      = V1.buildModelSchemas ms schema { disableFields := df, primaryKeyNames := ["id"] } :=
  ⟨rfl, rfl⟩

/-- C8: resolution tries the snake_case name under the expected kind check
first and the camelCase name second, independently for object types
(model slot), input-object types (insert/set/pk slots) and the delete
mutation field: the source's conditional, with its use-site kind guard,
equals the spec's prioritized candidate chain. -/
theorem resolution_snake_before_camel (schema : Schema) (sn cn : String)
    (mf : List (String × GType)) (dS dC : String) :
    Option.filter isObjectTypeDef (resolveObjectType schema sn cn)
      = specResolveChain schema.getType isObjectTypeDef sn cn ∧
    Option.filter isInputObjectTypeDef (resolveInputObjectType schema sn cn)
      = specResolveChain schema.getType isInputObjectTypeDef sn cn ∧
    deleteMutationLookup mf dS dC = specDeleteChain mf dS dC := by
  refine ⟨?_, ?_, ?_⟩
  · cases h : schema.getType sn with
    | none => simp [resolveObjectType, isObjectTypeOpt, specResolveChain, h, Option.filter]
    | some t =>
      cases ht : isObjectTypeDef t <;>
        simp [resolveObjectType, isObjectTypeOpt, specResolveChain, h, ht, Option.filter]
  · cases h : schema.getType sn with
    | none =>
      simp [resolveInputObjectType, isInputObjectTypeOpt, specResolveChain, h, Option.filter]
    | some t =>
      cases ht : isInputObjectTypeDef t <;>
        simp [resolveInputObjectType, isInputObjectTypeOpt, specResolveChain, h, ht,
          Option.filter]
  · cases h : List.lookup dS mf <;>
      simp [deleteMutationLookup, specDeleteChain, Option.orElse, h]

/-- C9: when the schema has no mutation type, both variants fail (the source
dereferences `getMutationType().getFields()` before the per-model loop)
regardless of the requested model names and options. -/
theorem buildModelSchemas_requires_mutation_type (models tables : List String)
    (schema : Schema) (o1 : V1.BuildModelSchemaOptions) (o2 : V2.BuildModelSchemaOptions)
    (h : schema.mutation = none) :
    V1.buildModelSchemas models schema o1 = Except.error noMutationTypeMessage ∧
    V2.buildModelSchemas tables schema o2 = Except.error noMutationTypeMessage := by
  unfold V1.buildModelSchemas V2.buildModelSchemas
  rw [h]
  exact ⟨rfl, rfl⟩

/-- C9 witness: a schema declaring all three `user` types but no mutation
type still makes both variants fail up front. -/
theorem buildModelSchemas_requires_mutation_type_witness :
    V1.buildModelSchemas ["user"] mutationlessSchema
        { disableFields := none, primaryKeyNames := ["id"] }
      = Except.error noMutationTypeMessage ∧
    V2.buildModelSchemas ["user"] mutationlessSchema
        { disableAggregateFields := false, disableFields := none }
      = Except.error noMutationTypeMessage :=
  buildModelSchemas_requires_mutation_type ["user"] ["user"] mutationlessSchema _ _ rfl

/-- C10: with the `disableFields` option absent, `buildModelSchema` behaves
exactly as with an empty exclusion list in both variants — it succeeds and
excludes no field on account of `disableFields`. -/
theorem buildModelSchema_disableFields_absent (fields : List (String × GType))
    (pks : List String) (dag : Bool) :
    V1.buildModelSchema fields { disableFields := none, primaryKeyNames := pks }
      = V1.buildModelSchema fields { disableFields := some [], primaryKeyNames := pks } ∧
    V2.buildModelSchema fields { disableAggregateFields := dag, disableFields := none }
      = V2.buildModelSchema fields { disableAggregateFields := dag, disableFields := some [] } :=
  ⟨foldl_fn_congr (fun _ _ => rfl) fields [],
   foldl_fn_congr (fun _ _ => rfl) fields []⟩
